import Mathlib

/-!
Shallow embedding of the vodozemac inbound-group-session core:
`src/megolm/inbound_group_session.rs`, `src/types.rs` and
`src/types/ed25519.rs`, together with the external collaborators they
consume through opaque interfaces (the Megolm ratchet, the cipher, the
message codec, base64 and the dalek key primitives).  Byte strings are
lists of natural numbers; external behaviour that the repository only
calls (signature verification, MAC checks, block decryption, base64,
the ratchet key-derivation step) is passed in as function parameters,
so every theorem quantifies over all possible behaviours of those
collaborators.
-/

set_option maxRecDepth 20000

namespace Vodozemac

/-- A byte string: a list of naturals (each byte is a value below 256;
no arithmetic below depends on the bound). -/
abbrev Bytes := List Nat

/-- Modelled from the spec: the opaque Ratchet collaborator
(`src/megolm/ratchet.rs` is not part of the provided sources).  It
"represents key-derivation-chain state bound to a 32-bit message
index": 128 key bytes plus the current index. -/
structure Ratchet where
  key : Bytes
  index : Nat
deriving Repr, DecidableEq

/-- Modelled from the spec: `Ratchet::from_bytes(bytes, index)` —
"construct from 128 raw bytes at a given index". -/
def Ratchet.from_bytes (bytes : Bytes) (index : Nat) : Ratchet :=
  { key := bytes, index := index }

/-- Modelled from the spec: `Ratchet::advance_to` — "advance forward to
any index ≥ current index (irreversible, overwrites state)"; the index
never decreases.  The opaque key-derivation chain step is the
parameter `step`; advancing by `n` indices applies it `n` times. -/
def Ratchet.advance_to (step : Bytes → Bytes) (r : Ratchet) (k : Nat) : Ratchet :=
  if r.index < k then { key := step^[k - r.index] r.key, index := k } else r

/-- Translation of `Ratchet::as_bytes` — "expose its raw bytes for keying the Cipher". -/
def Ratchet.as_bytes (r : Ratchet) : Bytes := r.key

/-- The session state, from `src/megolm/inbound_group_session.rs`:
two ratchets and the Ed25519 signing public key (kept as its 32 raw
bytes). -/
structure InboundGroupSession where
  initial_ratchet : Ratchet
  latest_ratchet : Ratchet
  signing_key : Bytes
deriving Repr, DecidableEq

/-- Translation of `InboundGroupSession::find_ratchet`, done clause by clause
from the source.  Rust mutates `self` and returns `Option<&Ratchet>`;
here the borrowed ratchet is returned by value next to the updated
session state. -/
def InboundGroupSession.find_ratchet (step : Bytes → Bytes)
    (s : InboundGroupSession) (message_index : Nat) :
    Option Ratchet × InboundGroupSession :=
  if s.initial_ratchet.index = message_index then
    (some s.initial_ratchet, s)
  else if s.latest_ratchet.index = message_index then
    (some s.latest_ratchet, s)
  else if s.latest_ratchet.index < message_index then
    let r := s.latest_ratchet.advance_to step message_index
    (some r, { s with latest_ratchet := r })
  else if s.initial_ratchet.index < message_index then
    let r := s.initial_ratchet.advance_to step message_index
    (some r, { s with latest_ratchet := r })
  else
    (none, s)

/-- The error enum of session construction.  The source spells it
`SessoinCreationError` (sic); payload-bearing externals (`io::Error`,
`base64::DecodeError`, `SignatureError`) are collapsed to nullary
constructors since only the variant is ever inspected. -/
inductive SessoinCreationError where
  | Version (expected actual : Nat)
  | Read
  | Base64
  | Signature
deriving Repr, DecidableEq

/-- Modelled from the spec: `SESSION_KEY_VERSION`, "the protocol's
single supported version constant", lives in `src/megolm/mod.rs` which
is not among the provided sources; the spec's concrete scenario
("session key with version=1 … succeeds; … with version=2 … fails
with VersionMismatch(1, 2)") fixes it to 1. -/
def SESSION_KEY_VERSION : Nat := 1

/-- Translation of `Cursor::read_exact` of `n` bytes starting at offset `pos`:
succeeds exactly when the buffer holds `pos + n` bytes. -/
def readExact (buf : Bytes) (pos n : Nat) : Option Bytes :=
  if pos + n ≤ buf.length then some ((buf.drop pos).take n) else none

/-- Translation of `u32::from_le_bytes` on a 4-byte list. -/
def u32_from_le (b : Bytes) : Nat :=
  b.getD 0 0 + 256 * b.getD 1 0 + 65536 * b.getD 2 0 + 16777216 * b.getD 3 0

/-- Translation of `InboundGroupSession::new`, starting
after the base64 decode (`decoded` is the decoded byte blob).  The
dalek externals are parameters: `keyOk` is success of
`PublicKey::from_bytes`, `sigOk` success of `Signature::from_bytes`,
and `verify pk msg sig` the outcome of `PublicKey::verify`.  Reads are
sequential: version byte first, then — only when the version byte
matches — index, ratchet seed, public key and signature; the
signature is verified over `decoded[..decoded.len() - 64]`. -/
def InboundGroupSession.new (keyOk sigOk : Bytes → Bool)
    (verify : Bytes → Bytes → Bytes → Bool) (decoded : Bytes) :
    Except SessoinCreationError InboundGroupSession :=
  match readExact decoded 0 1 with
  | none => .error .Read
  | some version =>
    if version.getD 0 0 ≠ SESSION_KEY_VERSION then
      .error (.Version SESSION_KEY_VERSION (version.getD 0 0))
    else
      match readExact decoded 1 4, readExact decoded 5 128,
            readExact decoded 133 32, readExact decoded 165 64 with
      | some indexBytes, some ratchet, some public_key, some signature =>
        let index := u32_from_le indexBytes
        let initial_ratchet := Ratchet.from_bytes ratchet index
        let latest_ratchet := initial_ratchet
        if keyOk public_key then
          if sigOk signature then
            if verify public_key (decoded.take (decoded.length - 64)) signature then
              .ok { initial_ratchet := initial_ratchet,
                    latest_ratchet := latest_ratchet,
                    signing_key := public_key }
            else .error .Signature
          else .error .Signature
        else .error .Signature
      | _, _, _, _ => .error .Read

/-- The error enum of `InboundGroupSession::decrypt`; as above the
external error payloads are dropped, `UnknownMessageIndex` keeps its
two `u32` fields. -/
inductive DecryptionError where
  | Base64
  | Signature
  | InvalidMAC
  | InvalidCiphertext
  | UnknownMessageIndex (first_known_index message_index : Nat)
  | DecodeError
deriving Repr, DecidableEq

/-- The value returned by a successful decrypt. -/
structure DecryptedMessage where
  plaintext : String
  message_index : Nat
deriving Repr, DecidableEq

/-- The fields the opaque Message Codec exposes for one decoded Megolm
message: the pair `(message, decoded)` of `MegolmMessage::decode`
flattened into one record (`bytes_for_signing` / `bytes_for_mac` come
from `message`, the rest from `decoded`). -/
structure MegolmMessageParts where
  message_index : Nat
  mac : Bytes
  signature : Bytes
  ciphertext : Bytes
  bytes_for_signing : Bytes
  bytes_for_mac : Bytes
deriving Repr, DecidableEq

/-- The opaque collaborators `decrypt` consumes, bundled: base64
decoding, the message codec, Ed25519 verification, the Megolm cipher's
MAC check and block decryption, lossy UTF-8 conversion, and the
ratchet chain step.  Theorems quantify over all instances. -/
structure Externals where
  b64decode : String → Option Bytes
  msgDecode : Bytes → Option MegolmMessageParts
  verify : Bytes → Bytes → Bytes → Bool
  macOk : Bytes → Bytes → Bytes → Bool
  blockDecrypt : Bytes → Bytes → Option Bytes
  utf8Lossy : Bytes → String
  step : Bytes → Bytes

/-- Translation of `InboundGroupSession::decrypt`.  Rust
mutates `self`; here the updated session is returned alongside the
result. -/
def InboundGroupSession.decrypt (E : Externals) (s : InboundGroupSession)
    (ciphertext : String) :
    Except DecryptionError DecryptedMessage × InboundGroupSession :=
  match E.b64decode ciphertext with
  | none => (.error .Base64, s)
  | some decoded =>
    match E.msgDecode decoded with
    | none => (.error .DecodeError, s)
    | some m =>
      if E.verify s.signing_key m.bytes_for_signing m.signature then
        match s.find_ratchet E.step m.message_index with
        | (some ratchet, s') =>
          let key := ratchet.as_bytes
          if E.macOk key m.bytes_for_mac m.mac then
            match E.blockDecrypt key m.ciphertext with
            | some plaintextBytes =>
              (.ok { plaintext := E.utf8Lossy plaintextBytes,
                     message_index := m.message_index }, s')
            | none => (.error .InvalidCiphertext, s')
          else (.error .InvalidMAC, s')
        | (none, s') =>
          (.error (.UnknownMessageIndex s'.initial_ratchet.index m.message_index), s')
      else (.error .Signature, s)

/-- Translation of `InboundGroupSession::export_at`: its
body is a single unconditional `todo!()` panic (and the function takes
no index argument at all), modelled as always returning `none`. -/
def InboundGroupSession.export_at (_ : InboundGroupSession) : Option String :=
  none

namespace Types

/-- The struct `Curve25519KeypairPickle` from `src/types.rs`: a 32-byte secret
scalar next to a 32-byte public point. -/
structure Curve25519KeypairPickle where
  secret : Bytes
  public : Bytes
deriving Repr, DecidableEq

/-- The clamping `x25519_dalek::StaticSecret::from([u8; 32])` applies
to the raw scalar bytes before storing them (`clamp_scalar`: clear the
low three bits of byte 0, clear the top bit and set bit 6 of byte 31);
`StaticSecret::to_bytes` returns the stored, clamped bytes. -/
def clamp_scalar (b : Bytes) : Bytes :=
  (b.set 0 (b.getD 0 0 &&& 248)).set 31 ((b.getD 31 0 &&& 127) ||| 64)

/-- The struct `Curve25519Keypair` from `src/types.rs`; `secret_key` holds the
bytes the stored `StaticSecret` would return from `to_bytes`,
`public_key` the raw public point bytes. -/
structure Curve25519Keypair where
  secret_key : Bytes
  public_key : Bytes
  encoded_public_key : String
deriving Repr, DecidableEq

/-- Translation of `From<Curve25519KeypairPickle> for Curve25519Keypair`: the secret
goes through `StaticSecret::from` (which clamps), the public point is
taken verbatim from the pickle (`pickle.public.into()` stores the
bytes unchanged), and the cached base64 encoding is recomputed from
the pickled public bytes.  `b64enc` is the external `base64_encode`. -/
def Curve25519Keypair.from_pickle (b64enc : Bytes → String)
    (pickle : Curve25519KeypairPickle) : Curve25519Keypair :=
  { secret_key := clamp_scalar pickle.secret,
    public_key := pickle.public,
    encoded_public_key := b64enc pickle.public }

/-- Translation of `From<Curve25519Keypair> for Curve25519KeypairPickle`: raw bytes
of both keys. -/
def Curve25519KeypairPickle.from_keypair (key : Curve25519Keypair) :
    Curve25519KeypairPickle :=
  { secret := key.secret_key, public := key.public_key }

/-- The `Drop` impl for `Curve25519KeypairPickle` in `src/types.rs`:
`self.secret.zeroize()` overwrites every secret byte with zero; the
public bytes are untouched.  The result models the container's
observable contents after the drop ran. -/
def Curve25519KeypairPickle.dropped (p : Curve25519KeypairPickle) :
    Curve25519KeypairPickle :=
  { p with secret := List.replicate p.secret.length 0 }

/-- The struct `Ed25519KeypairPickle` from `src/types.rs`: the `Vec<u8>` of
`ed25519_dalek::Keypair::to_bytes` (32 secret bytes followed by the 32
compressed public bytes). -/
structure Ed25519KeypairPickle where
  bytes : Bytes
deriving Repr, DecidableEq

/-- The struct `Ed25519Keypair` from `src/types.rs`; `inner` holds the bytes the
stored `ed25519_dalek::Keypair` would return from `to_bytes` (the pair
stores both halves verbatim). -/
structure Ed25519Keypair where
  inner : Bytes
  encoded_public_key : String
deriving Repr, DecidableEq

/-- Translation of `TryFrom<Ed25519KeypairPickle> for Ed25519Keypair`:
`Keypair::from_bytes` demands exactly 64 bytes and a public half that
passes point decompression (the external check is the parameter
`pubOk`); both halves are stored verbatim.  Note the source computes
`encoded_public_key` as `base64_encode(&pickle.0)` — the whole 64-byte
pickle, not just the public half; this is kept as-is. -/
def Ed25519Keypair.try_from_pickle (pubOk : Bytes → Bool) (b64enc : Bytes → String)
    (pickle : Ed25519KeypairPickle) : Option Ed25519Keypair :=
  if pickle.bytes.length = 64 ∧ pubOk (pickle.bytes.drop 32) then
    some { inner := pickle.bytes, encoded_public_key := b64enc pickle.bytes }
  else
    none

/-- Translation of `From<Ed25519Keypair> for Ed25519KeypairPickle`:
`key.inner.to_bytes().to_vec()`. -/
def Ed25519KeypairPickle.from_keypair (key : Ed25519Keypair) : Ed25519KeypairPickle :=
  { bytes := key.inner }

/-- The `#[zeroize(drop)]` derive on `Ed25519KeypairPickle` in
`src/types.rs`: dropping the pickle zeroizes the backing bytes of its
`Vec<u8>`.  The result models the backing buffer after the drop. -/
def Ed25519KeypairPickle.dropped (p : Ed25519KeypairPickle) : Ed25519KeypairPickle :=
  { bytes := List.replicate p.bytes.length 0 }

end Types

namespace Ed25519File

/-- The struct `Ed25519KeypairPickle` from `src/types/ed25519.rs`: a transparent
wrapper around the external `SigningKey`, held here as the signing
key's 32 secret bytes. -/
structure Ed25519KeypairPickle where
  signing_key_bytes : Bytes
deriving Repr, DecidableEq

/-- Drop behaviour of the `src/types/ed25519.rs` pickle as defined by
this repository: the struct declares no `Drop` impl and carries no
zeroize attribute (the file's `zeroize` import is commented out), so
the drop glue contributed by this file leaves the secret bytes exactly
as they were; any clearing would have to come from the external
`SigningKey` type, outside these sources. -/
def Ed25519KeypairPickle.dropped (p : Ed25519KeypairPickle) : Ed25519KeypairPickle :=
  p

end Ed25519File

/-- A concrete ratchet chain step used to instantiate theorems on
executable inputs (the theorems themselves quantify over all steps). -/
def testStep : Bytes → Bytes := fun b => 0 :: b

/-- A concrete ratchet at a given index, for instantiating theorems. -/
def testRatchet (i : Nat) : Ratchet :=
  { key := List.replicate 128 3, index := i }

/-- A concrete session whose two ratchets both sit at index 5. -/
def testSession : InboundGroupSession :=
  { initial_ratchet := testRatchet 5, latest_ratchet := testRatchet 5,
    signing_key := List.replicate 32 7 }

/-- A concrete decoded Megolm message with the given declared index. -/
def testMsg (i : Nat) : MegolmMessageParts :=
  { message_index := i, mac := [1], signature := [2], ciphertext := [3],
    bytes_for_signing := [4], bytes_for_mac := [5] }

/-- Concrete collaborators whose message codec reports the given
declared index and whose cryptographic checks all succeed. -/
def testExternals (i : Nat) : Externals :=
  { b64decode := fun _ => some [9], msgDecode := fun _ => some (testMsg i),
    verify := fun _ _ _ => true, macOk := fun _ _ _ => true,
    blockDecrypt := fun _ ct => some ct, utf8Lossy := fun _ => "pt",
    step := testStep }

/-- Concrete collaborators whose base64 decoding always fails. -/
def failingExternals : Externals :=
  { b64decode := fun _ => none, msgDecode := fun _ => none,
    verify := fun _ _ _ => false, macOk := fun _ _ _ => false,
    blockDecrypt := fun _ _ => none, utf8Lossy := fun _ => "",
    step := testStep }

theorem Ratchet.advance_to_index (step : Bytes → Bytes) (r : Ratchet) (k : Nat) :
    (r.advance_to step k).index = max r.index k := by
  unfold Ratchet.advance_to
  split <;> simp <;> omega

theorem find_ratchet_inv (step : Bytes → Bytes) (s : InboundGroupSession) (m : Nat)
    (h : s.initial_ratchet.index ≤ s.latest_ratchet.index) :
    (s.find_ratchet step m).2.initial_ratchet.index ≤
      (s.find_ratchet step m).2.latest_ratchet.index := by
  unfold InboundGroupSession.find_ratchet
  split_ifs <;> simp [Ratchet.advance_to_index] <;> omega

theorem find_ratchet_frame (step : Bytes → Bytes) (s : InboundGroupSession) (m : Nat) :
    (s.find_ratchet step m).2.initial_ratchet = s.initial_ratchet ∧
      (s.find_ratchet step m).2.signing_key = s.signing_key := by
  unfold InboundGroupSession.find_ratchet
  split_ifs <;> simp

/-- C1: `find_ratchet` resolves a ratchet whose index equals
`message_index` by the exact five-way precedence of the source: the
initial ratchet unmodified when its index matches; else the latest
ratchet unmodified when its index matches; else the latest ratchet
advanced in place when it is below the request; else a fresh duplicate
of the initial ratchet advanced to the request, replacing the latest
ratchet; otherwise failure with the session state unchanged. -/
theorem find_ratchet_precedence (step : Bytes → Bytes)
    (s : InboundGroupSession) (m : Nat) :
    (s.initial_ratchet.index = m →
      s.find_ratchet step m = (some s.initial_ratchet, s)) ∧
    (s.initial_ratchet.index ≠ m → s.latest_ratchet.index = m →
      s.find_ratchet step m = (some s.latest_ratchet, s)) ∧
    (s.initial_ratchet.index ≠ m → s.latest_ratchet.index ≠ m →
      s.latest_ratchet.index < m →
      s.find_ratchet step m =
        (some (s.latest_ratchet.advance_to step m),
         { s with latest_ratchet := s.latest_ratchet.advance_to step m }) ∧
      (s.latest_ratchet.advance_to step m).index = m) ∧
    (s.initial_ratchet.index ≠ m → s.latest_ratchet.index ≠ m →
      ¬ s.latest_ratchet.index < m → s.initial_ratchet.index < m →
      s.find_ratchet step m =
        (some (s.initial_ratchet.advance_to step m),
         { s with latest_ratchet := s.initial_ratchet.advance_to step m }) ∧
      (s.initial_ratchet.advance_to step m).index = m) ∧
    (m < s.initial_ratchet.index → m < s.latest_ratchet.index →
      s.find_ratchet step m = (none, s)) := by
  refine ⟨?_, ?_, ?_, ?_, ?_⟩
  · intro h1
    simp [InboundGroupSession.find_ratchet, h1]
  · intro h1 h2
    simp [InboundGroupSession.find_ratchet, h1, h2]
  · intro h1 h2 h3
    refine ⟨by simp [InboundGroupSession.find_ratchet, h1, h2, h3], ?_⟩
    rw [Ratchet.advance_to_index]; omega
  · intro h1 h2 h3 h4
    refine ⟨by simp [InboundGroupSession.find_ratchet, h1, h2, h3, h4], ?_⟩
    rw [Ratchet.advance_to_index]; omega
  · intro h1 h2
    have g1 : s.initial_ratchet.index ≠ m := by omega
    have g2 : s.latest_ratchet.index ≠ m := by omega
    have g3 : ¬ s.latest_ratchet.index < m := by omega
    have g4 : ¬ s.initial_ratchet.index < m := by omega
    simp [InboundGroupSession.find_ratchet, g1, g2, g3, g4]

theorem find_ratchet_precedence_witness :
    ({ initial_ratchet := testRatchet 5, latest_ratchet := testRatchet 10,
       signing_key := [] } : InboundGroupSession).find_ratchet testStep 7
      = (some (Ratchet.advance_to testStep (testRatchet 5) 7),
         { initial_ratchet := testRatchet 5,
           latest_ratchet := Ratchet.advance_to testStep (testRatchet 5) 7,
           signing_key := [] })
    ∧ (Ratchet.advance_to testStep (testRatchet 5) 7).index = 7 := by
  exact (find_ratchet_precedence testStep
    { initial_ratchet := testRatchet 5, latest_ratchet := testRatchet 10,
      signing_key := [] } 7).2.2.2.1
    (by decide) (by decide) (by decide) (by decide)

/-- C7: `export_at` never returns a session-key blob — its body is an
unconditional `todo!()` panic (modelled as `none`), for every session
state. -/
theorem export_at_always_fails (s : InboundGroupSession) :
    s.export_at = none := rfl

/-- C8 counterexample: the pickle → keypair → pickle round trip is not
byte-identical for the Curve25519 pickle whose secret byte 0 is 1:
unpickling clamps the secret scalar (byte 0 becomes 0 and byte 31
becomes 64), so pickling again yields different secret bytes. -/
theorem pickle_roundtrip_counterexample :
    Types.Curve25519KeypairPickle.from_keypair
        (Types.Curve25519Keypair.from_pickle (fun _ => "")
          { secret := 1 :: List.replicate 31 0, public := List.replicate 32 2 })
      ≠ { secret := 1 :: List.replicate 31 0, public := List.replicate 32 2 } := by
  decide

/-- C8 amended: pickle → keypair → pickle reproduces the Curve25519
pickle's public bytes always and its secret bytes exactly when they
are already clamped (as every pickle produced from a keypair is); the
Ed25519 pickle of `src/types.rs` round-trips byte-identically whenever
unpickling succeeds. -/
theorem pickle_roundtrip (b64enc : Bytes → String) (pubOk : Bytes → Bool)
    (p : Types.Curve25519KeypairPickle) (q : Types.Ed25519KeypairPickle)
    (k : Types.Ed25519Keypair) :
    (Types.Curve25519KeypairPickle.from_keypair
        (Types.Curve25519Keypair.from_pickle b64enc p)
      = { secret := Types.clamp_scalar p.secret, public := p.public }) ∧
    (Types.clamp_scalar p.secret = p.secret →
      Types.Curve25519KeypairPickle.from_keypair
          (Types.Curve25519Keypair.from_pickle b64enc p) = p) ∧
    (Types.Ed25519Keypair.try_from_pickle pubOk b64enc q = some k →
      Types.Ed25519KeypairPickle.from_keypair k = q) := by
  refine ⟨rfl, ?_, ?_⟩
  · intro h
    cases p with
    | mk secret public =>
      simp [Types.Curve25519KeypairPickle.from_keypair,
        Types.Curve25519Keypair.from_pickle]
      exact h
  · intro h
    unfold Types.Ed25519Keypair.try_from_pickle at h
    split at h
    · cases h
      cases q
      rfl
    · cases h

theorem pickle_roundtrip_witness :
    Types.Curve25519KeypairPickle.from_keypair
        (Types.Curve25519Keypair.from_pickle (fun _ => "")
          { secret := List.replicate 31 0 ++ [64], public := List.replicate 32 2 })
      = { secret := List.replicate 31 0 ++ [64], public := List.replicate 32 2 }
    ∧ Types.Ed25519KeypairPickle.from_keypair
        { inner := List.replicate 64 5, encoded_public_key := "" }
      = { bytes := List.replicate 64 5 } := by
  refine ⟨(pickle_roundtrip (fun _ => "") (fun _ => true)
      { secret := List.replicate 31 0 ++ [64], public := List.replicate 32 2 }
      { bytes := List.replicate 64 5 }
      { inner := List.replicate 64 5, encoded_public_key := "" }).2.1 (by decide),
    (pickle_roundtrip (fun _ => "") (fun _ => true)
      { secret := [], public := [] }
      { bytes := List.replicate 64 5 }
      { inner := List.replicate 64 5, encoded_public_key := "" }).2.2 (by decide)⟩

/-- C9 counterexample: the `Ed25519KeypairPickle` of
`src/types/ed25519.rs` holds private key material, yet the repository
defines no zeroizing drop for it — after the drop glue this file
contributes runs, a pickle whose secret bytes are all 1 still holds
those bytes, not zeroes. -/
theorem pickle_drop_counterexample :
    (Ed25519File.Ed25519KeypairPickle.dropped
        { signing_key_bytes := List.replicate 32 1 }).signing_key_bytes
      = List.replicate 32 1
    ∧ List.replicate 32 1 ≠ List.replicate 32 0 := by
  decide

/-- C9 amended: of the secret-bearing pickles, the two in
`src/types.rs` overwrite their secret bytes with zero on drop (the
Curve25519 pickle via its explicit `Drop` impl, which leaves the
public bytes alone; the Ed25519 pickle via `#[zeroize(drop)]`), while
the `Ed25519KeypairPickle` of `src/types/ed25519.rs` defines no
zeroizing drop of its own and leaves its bytes unchanged. -/
theorem pickle_drop_zeroization (p : Types.Curve25519KeypairPickle)
    (q : Types.Ed25519KeypairPickle) (r : Ed25519File.Ed25519KeypairPickle) :
    ((Types.Curve25519KeypairPickle.dropped p).secret
        = List.replicate p.secret.length 0) ∧
    ((Types.Curve25519KeypairPickle.dropped p).public = p.public) ∧
    ((Types.Ed25519KeypairPickle.dropped q).bytes
        = List.replicate q.bytes.length 0) ∧
    (Ed25519File.Ed25519KeypairPickle.dropped r = r) :=
  ⟨rfl, rfl, rfl, rfl⟩

/-- C10: unpickling a Curve25519 keypair takes the public point
verbatim from the pickle and stores the clamped secret scalar, never
re-deriving the public point: for every derivation function (standing
for the external scalar-base multiplication) and every pickle whose
public bytes differ from the derivation of its stored scalar, the
resulting keypair's public key differs from the key derived from its
secret key. -/
theorem curve25519_unpickle_no_rederivation (derive : Bytes → Bytes)
    (b64enc : Bytes → String) (p : Types.Curve25519KeypairPickle) :
    ((Types.Curve25519Keypair.from_pickle b64enc p).public_key = p.public) ∧
    ((Types.Curve25519Keypair.from_pickle b64enc p).secret_key
        = Types.clamp_scalar p.secret) ∧
    (p.public ≠ derive (Types.clamp_scalar p.secret) →
      (Types.Curve25519Keypair.from_pickle b64enc p).public_key
        ≠ derive (Types.Curve25519Keypair.from_pickle b64enc p).secret_key) := by
  refine ⟨rfl, rfl, ?_⟩
  intro h
  simpa [Types.Curve25519Keypair.from_pickle] using h

theorem curve25519_unpickle_no_rederivation_witness :
    (Types.Curve25519Keypair.from_pickle (fun _ => "")
        { secret := List.replicate 32 0, public := List.replicate 32 1 }).public_key
      ≠ (fun _ => List.replicate 32 0)
          (Types.Curve25519Keypair.from_pickle (fun _ => "")
            { secret := List.replicate 32 0, public := List.replicate 32 1 }).secret_key := by
  exact (curve25519_unpickle_no_rederivation (fun _ => List.replicate 32 0)
    (fun _ => "")
    { secret := List.replicate 32 0, public := List.replicate 32 1 }).2.2 (by decide)

theorem getD_take_one (l : Bytes) : (l.take 1).getD 0 0 = l.getD 0 0 := by
  cases l <;> simp [List.getD]

/-- C2 counterexample: on a 230-byte decoded blob (valid version byte,
all five fields readable, key and signature parse), the code verifies
the signature over `decoded[..len - 64]` — here the 166-byte range
`[0,166)`, not `[0,165)`: with a verifier that accepts exactly the
165-byte range `[0,165)` the claim predicts success, yet construction
fails with a signature error. -/
theorem new_signature_range_counterexample :
    InboundGroupSession.new (fun _ => true) (fun _ => true)
        (fun _ msg _ => decide (msg.length = 165)) (1 :: List.replicate 229 0)
      = Except.error SessoinCreationError.Signature
    ∧ (fun (_ msg _ : Bytes) => decide (msg.length = 165)) []
        ((1 :: List.replicate 229 0).take 165) [] = true := by
  exact ⟨rfl, rfl⟩

/-- C2 amended: whenever `InboundGroupSession::new` reaches the
signature-verification step (all five fixed-layout reads succeeded,
the version byte matches, and the public key and signature parsed), it
verifies the parsed signature, with the parsed public key, over the
decoded bytes `[0, len - 64)` — which is exactly `[0,165)` when the
decoded blob is exactly 229 bytes — succeeding with the fully built
session when verification passes and failing with a signature error,
retaining no partial state, when it does not. -/
theorem new_signature_verification_range (keyOk sigOk : Bytes → Bool)
    (verify : Bytes → Bytes → Bytes → Bool) (decoded : Bytes)
    (hlen : 229 ≤ decoded.length)
    (hver : decoded.getD 0 0 = SESSION_KEY_VERSION)
    (hkey : keyOk ((decoded.drop 133).take 32) = true)
    (hsig : sigOk ((decoded.drop 165).take 64) = true) :
    (InboundGroupSession.new keyOk sigOk verify decoded =
      if verify ((decoded.drop 133).take 32)
          (decoded.take (decoded.length - 64)) ((decoded.drop 165).take 64) then
        Except.ok
          { initial_ratchet := Ratchet.from_bytes ((decoded.drop 5).take 128)
              (u32_from_le ((decoded.drop 1).take 4)),
            latest_ratchet := Ratchet.from_bytes ((decoded.drop 5).take 128)
              (u32_from_le ((decoded.drop 1).take 4)),
            signing_key := (decoded.drop 133).take 32 }
      else Except.error SessoinCreationError.Signature) ∧
    (decoded.length = 229 →
      decoded.take (decoded.length - 64) = decoded.take 165) := by
  constructor
  · have c0 : 0 + 1 ≤ decoded.length := by omega
    have c1 : 1 + 4 ≤ decoded.length := by omega
    have c2 : 5 + 128 ≤ decoded.length := by omega
    have c3 : 133 + 32 ≤ decoded.length := by omega
    have c4 : 165 + 64 ≤ decoded.length := by omega
    unfold InboundGroupSession.new readExact
    rw [if_pos c0, if_pos c1, if_pos c2, if_pos c3, if_pos c4]
    simp only [List.drop_zero, getD_take_one, hver]
    rw [if_neg (by simp)]
    simp only [hkey, hsig, if_true]
  · intro h
    rw [h]

theorem new_signature_verification_range_witness :
    InboundGroupSession.new (fun _ => true) (fun _ => true) (fun _ _ _ => true)
        (1 :: List.replicate 228 0)
      = Except.ok
          { initial_ratchet := Ratchet.from_bytes (List.replicate 128 0) 0,
            latest_ratchet := Ratchet.from_bytes (List.replicate 128 0) 0,
            signing_key := List.replicate 32 0 }
    ∧ (1 :: List.replicate 228 0 : Bytes).take ((1 :: List.replicate 228 0 : Bytes).length - 64)
      = (1 :: List.replicate 228 0 : Bytes).take 165 := by
  have h := new_signature_verification_range (fun _ => true) (fun _ => true)
    (fun _ _ _ => true) (1 :: List.replicate 228 0)
    (by decide) (by decide) (by decide) (by decide)
  refine ⟨?_, h.2 (by decide)⟩
  rw [h.1]
  rfl

/-- C6 counterexample: the one-byte decoded blob `[0]` is shorter than
the 229 bytes of the fixed layout, yet construction fails with a
version error (the version byte is checked right after the first read,
before the remaining fields are read), not with a truncation error. -/
theorem new_truncation_counterexample :
    ([0] : Bytes).length < 229
    ∧ InboundGroupSession.new (fun _ => true) (fun _ => true) (fun _ _ _ => true) [0]
      = Except.error (SessoinCreationError.Version 1 0)
    ∧ InboundGroupSession.new (fun _ => true) (fun _ => true) (fun _ _ _ => true) [0]
      ≠ Except.error SessoinCreationError.Read := by
  have e : InboundGroupSession.new (fun _ => true) (fun _ => true) (fun _ _ _ => true) [0]
      = Except.error (SessoinCreationError.Version 1 0) := rfl
  refine ⟨by decide, e, ?_⟩
  rw [e]
  simp

/-- C6 amended: a decoded session-key blob of fewer than 229 bytes
always fails construction — with a truncation (too-short read) error
when the blob is empty or its first byte equals the supported version,
and with a version error otherwise, because the version byte is
checked immediately after the first one-byte read, before the
remaining four reads. -/
theorem new_truncation (keyOk sigOk : Bytes → Bool)
    (verify : Bytes → Bytes → Bytes → Bool) (decoded : Bytes)
    (hlen : decoded.length < 229) :
    (decoded = [] ∨ decoded.getD 0 0 = SESSION_KEY_VERSION →
      InboundGroupSession.new keyOk sigOk verify decoded
        = Except.error SessoinCreationError.Read) ∧
    (decoded ≠ [] → decoded.getD 0 0 ≠ SESSION_KEY_VERSION →
      InboundGroupSession.new keyOk sigOk verify decoded
        = Except.error (SessoinCreationError.Version SESSION_KEY_VERSION
            (decoded.getD 0 0))) := by
  constructor
  · intro h
    rcases h with h | h
    · subst h
      rfl
    · unfold InboundGroupSession.new readExact
      have c0 : 0 + 1 ≤ decoded.length := by
        cases decoded with
        | nil => simp [List.getD] at h; exact absurd h (by simp [SESSION_KEY_VERSION])
        | cons a t => simp
      rw [if_pos c0]
      simp only [List.drop_zero, getD_take_one, h]
      rw [if_neg (by simp)]
      have c4 : ¬ (165 + 64 ≤ decoded.length) := by omega
      rw [if_neg c4]
      rcases h1 : (if 1 + 4 ≤ decoded.length then some ((decoded.drop 1).take 4) else none) with _ | v1 <;>
        rcases h2 : (if 5 + 128 ≤ decoded.length then some ((decoded.drop 5).take 128) else none) with _ | v2 <;>
        rcases h3 : (if 133 + 32 ≤ decoded.length then some ((decoded.drop 133).take 32) else none) with _ | v3 <;>
        rfl
  · intro h1 h2
    unfold InboundGroupSession.new readExact
    have c0 : 0 + 1 ≤ decoded.length := by
      cases decoded with
      | nil => exact absurd rfl h1
      | cons a t => simp
    rw [if_pos c0]
    simp only [List.drop_zero, getD_take_one]
    rw [if_pos h2]

theorem new_truncation_witness :
    InboundGroupSession.new (fun _ => true) (fun _ => true) (fun _ _ _ => true)
        (1 :: List.replicate 100 0)
      = Except.error SessoinCreationError.Read := by
  exact (new_truncation (fun _ => true) (fun _ => true) (fun _ _ _ => true)
    (1 :: List.replicate 100 0) (by decide)).1 (Or.inr (by decide))

/-- C3: for every session satisfying the reachable-state invariant and
every message whose base64 decoding, structural decoding and signature
verification succeed but whose declared index is strictly below the
initial ratchet's index, decrypt fails with `UnknownMessageIndex`
carrying the initial ratchet's index and the declared index, and the
session state is left entirely unchanged. -/
theorem decrypt_unknown_message_index (E : Externals) (s : InboundGroupSession)
    (ct : String) (decoded : Bytes) (m : MegolmMessageParts)
    (hinv : s.initial_ratchet.index ≤ s.latest_ratchet.index)
    (hb64 : E.b64decode ct = some decoded)
    (hdec : E.msgDecode decoded = some m)
    (hver : E.verify s.signing_key m.bytes_for_signing m.signature = true)
    (hidx : m.message_index < s.initial_ratchet.index) :
    s.decrypt E ct =
      (Except.error (DecryptionError.UnknownMessageIndex
          s.initial_ratchet.index m.message_index), s) := by
  have hfind : s.find_ratchet E.step m.message_index = (none, s) := by
    have g1 : s.initial_ratchet.index ≠ m.message_index := by omega
    have g2 : s.latest_ratchet.index ≠ m.message_index := by omega
    have g3 : ¬ s.latest_ratchet.index < m.message_index := by omega
    have g4 : ¬ s.initial_ratchet.index < m.message_index := by omega
    simp [InboundGroupSession.find_ratchet, g1, g2, g3, g4]
  unfold InboundGroupSession.decrypt
  simp only [hb64, hdec, hver, if_true, hfind]

theorem decrypt_unknown_message_index_witness :
    testSession.decrypt (testExternals 3) "m"
      = (Except.error (DecryptionError.UnknownMessageIndex 5 3), testSession) := by
  exact decrypt_unknown_message_index (testExternals 3) testSession "m" [9]
    (testMsg 3) (by decide) rfl rfl rfl (by decide)

/-- C4: the invariant `initial_ratchet.index ≤ latest_ratchet.index`
holds in every reachable session state: every session built by
`InboundGroupSession::new` satisfies it (both ratchets start as the
same clone), and every `decrypt` call, successful or failed, preserves
it (the ratchet's `advance_to` never decreases its index). -/
theorem session_index_invariant (keyOk sigOk : Bytes → Bool)
    (verify : Bytes → Bytes → Bytes → Bool) (decoded : Bytes)
    (E : Externals) (s t : InboundGroupSession) (ct : String) :
    (InboundGroupSession.new keyOk sigOk verify decoded = Except.ok t →
      t.initial_ratchet.index ≤ t.latest_ratchet.index) ∧
    (s.initial_ratchet.index ≤ s.latest_ratchet.index →
      (s.decrypt E ct).2.initial_ratchet.index ≤
        (s.decrypt E ct).2.latest_ratchet.index) := by
  constructor
  · intro h
    unfold InboundGroupSession.new at h
    repeat' split at h
    all_goals simp_all
    subst h
    simp
  · intro hinv
    unfold InboundGroupSession.decrypt
    cases hb : E.b64decode ct with
    | none => simpa using hinv
    | some d =>
      dsimp only
      cases hd : E.msgDecode d with
      | none => simpa using hinv
      | some m =>
        dsimp only
        by_cases hv : E.verify s.signing_key m.bytes_for_signing m.signature = true
        · simp only [hv, if_true]
          have hk := find_ratchet_inv E.step s m.message_index hinv
          rcases hf : s.find_ratchet E.step m.message_index with ⟨o, s'⟩
          rw [hf] at hk
          cases o with
          | none => simpa using hk
          | some r =>
            dsimp only
            split
            · rcases hc : E.blockDecrypt r.as_bytes m.ciphertext with _ | pt <;>
                simpa [hc] using hk
            · simpa using hk
        · simp only [Bool.not_eq_true] at hv
          simpa [hv] using hinv

theorem session_index_invariant_witness :
    ((InboundGroupSession.new (fun _ => true) (fun _ => true) (fun _ _ _ => true)
        (1 :: List.replicate 228 0) = Except.ok
          { initial_ratchet := Ratchet.from_bytes (List.replicate 128 0) 0,
            latest_ratchet := Ratchet.from_bytes (List.replicate 128 0) 0,
            signing_key := List.replicate 32 0 }) →
      ({ initial_ratchet := Ratchet.from_bytes (List.replicate 128 0) 0,
         latest_ratchet := Ratchet.from_bytes (List.replicate 128 0) 0,
         signing_key := List.replicate 32 0 } : InboundGroupSession).initial_ratchet.index ≤
        ({ initial_ratchet := Ratchet.from_bytes (List.replicate 128 0) 0,
           latest_ratchet := Ratchet.from_bytes (List.replicate 128 0) 0,
           signing_key := List.replicate 32 0 } : InboundGroupSession).latest_ratchet.index)
    ∧ (testSession.decrypt (testExternals 9) "m").2.initial_ratchet.index ≤
        (testSession.decrypt (testExternals 9) "m").2.latest_ratchet.index := by
  exact ⟨(session_index_invariant (fun _ => true) (fun _ => true) (fun _ _ _ => true)
      (1 :: List.replicate 228 0) (testExternals 9)
      testSession
      { initial_ratchet := Ratchet.from_bytes (List.replicate 128 0) 0,
        latest_ratchet := Ratchet.from_bytes (List.replicate 128 0) 0,
        signing_key := List.replicate 32 0 } "m").1,
    (session_index_invariant (fun _ => true) (fun _ => true) (fun _ _ _ => true)
      (1 :: List.replicate 228 0) (testExternals 9) testSession testSession "m").2
      (by decide)⟩

/-- C5: `decrypt` never changes `initial_ratchet` or `signing_key` —
only `latest_ratchet` may change — and when it fails before the
ratchet lookup (base64 decode failure, message decode failure, or
signature-verification failure) the whole session state, including
`latest_ratchet`, is unchanged. -/
theorem decrypt_frame_conditions (E : Externals) (s : InboundGroupSession)
    (ct : String) :
    ((s.decrypt E ct).2.initial_ratchet = s.initial_ratchet) ∧
    ((s.decrypt E ct).2.signing_key = s.signing_key) ∧
    (E.b64decode ct = none → (s.decrypt E ct).2 = s) ∧
    (∀ d, E.b64decode ct = some d → E.msgDecode d = none →
      (s.decrypt E ct).2 = s) ∧
    (∀ d m, E.b64decode ct = some d → E.msgDecode d = some m →
      E.verify s.signing_key m.bytes_for_signing m.signature = false →
      (s.decrypt E ct).2 = s) := by
  have main : (s.decrypt E ct).2.initial_ratchet = s.initial_ratchet ∧
      (s.decrypt E ct).2.signing_key = s.signing_key := by
    unfold InboundGroupSession.decrypt
    cases hb : E.b64decode ct with
    | none => simp
    | some d =>
      dsimp only
      cases hd : E.msgDecode d with
      | none => simp
      | some m =>
        dsimp only
        by_cases hv : E.verify s.signing_key m.bytes_for_signing m.signature = true
        · simp only [hv, if_true]
          have hk := find_ratchet_frame E.step s m.message_index
          rcases hf : s.find_ratchet E.step m.message_index with ⟨o, s'⟩
          rw [hf] at hk
          cases o with
          | none => simpa using hk
          | some r =>
            dsimp only
            split
            · rcases hc : E.blockDecrypt r.as_bytes m.ciphertext with _ | pt <;>
                simpa [hc] using hk
            · simpa using hk
        · simp only [Bool.not_eq_true] at hv
          simp [hv]
  refine ⟨main.1, main.2, ?_, ?_, ?_⟩
  · intro hb
    simp [InboundGroupSession.decrypt, hb]
  · intro d hb hd
    simp [InboundGroupSession.decrypt, hb, hd]
  · intro d m hb hd hv
    simp [InboundGroupSession.decrypt, hb, hd, hv]

theorem decrypt_frame_conditions_witness :
    (testSession.decrypt failingExternals "x").2 = testSession
    ∧ (testSession.decrypt (testExternals 9) "x").2.initial_ratchet
      = testSession.initial_ratchet := by
  exact ⟨(decrypt_frame_conditions failingExternals testSession "x").2.2.1 rfl,
    (decrypt_frame_conditions (testExternals 9) testSession "x").1⟩

end Vodozemac
